import Mathlib

/-!
Verification of the CDC (change-data-capture) pipeline of the
`serverless-rust-demo` repository: decoding DynamoDB stream records into
domain events and batch-publishing those events to EventBridge.

The Rust source is shallowly embedded:
* `HashMap<String, AttributeValue>` becomes an association list
  (`AttrMap`) with first-match lookup (DynamoDB maps have unique keys);
* `f64` values become exact rationals (`ℚ`); Rust's
  `str::parse::<f64>()` is modelled by `parseNum` (same acceptance
  grammar for decimal literals, exact rational value; the `inf` / `nan`
  word forms are outside the model), and Rust's `Display` for finite
  floats (shortest plain-decimal form, never exponent notation) is
  modelled by `formatNum`;
* fallible Rust functions returning `Result<_, Error>` become
  `Except Error _`;
* async I/O (the EventBridge client, the event-bus trait object) is
  modelled by passing the bus as an oracle function from a submitted
  entry list to its result, together with the list of submissions that
  were dispatched.

All recursive definitions are structurally recursive (fuel-based where
the natural recursion is on a measure), so every definition evaluates by
kernel reduction on concrete inputs.
-/

/-! ## Decimal number strings

Model of the numeric wire form: DynamoDB transmits numbers as strings
(`AttributeValue::N`); the Rust code parses them with
`str::parse::<f64>()` and prints them with `format!("{:}", f64)`.
-/

/-- Value of a most-significant-first list of ASCII digit characters. -/
def digitsToNat (ds : List Char) : Nat :=
  ds.foldl (fun a c => a * 10 + (c.toNat - 48)) 0

/-- Little-endian base-10 digits of `n`, with explicit fuel (intended
fuel: any bound with `n ≤ fuel`); agrees with `Nat.digits 10`. -/
def digitsAuxLE (fuel : Nat) (n : Nat) : List Nat :=
  match fuel with
  | 0 => []
  | fuel + 1 => if n = 0 then [] else n % 10 :: digitsAuxLE fuel (n / 10)

/-- Most-significant-first ASCII digit rendering of a natural number
(empty for zero, as with `Nat.digits`). -/
def natToDigits (n : Nat) : List Char :=
  ((digitsAuxLE n n).reverse).map Nat.digitChar

/-- Strip one optional leading sign character; `true` means negative.
Models the sign handling of Rust's float grammar. -/
def splitSign : List Char → Bool × List Char
  | [] => (false, [])
  | c :: rest =>
    if c = '-' then (true, rest)
    else if c = '+' then (false, rest)
    else (false, c :: rest)

/-- Parse the significand `Digits '.'? Digits?` / `'.' Digits` of Rust's
float grammar: returns the digits' value, the number of fractional
digits, and the unconsumed remainder; fails when no digit is present. -/
def parseMantissa (cs : List Char) : Option (Nat × Nat × List Char) :=
  let intDs := cs.takeWhile Char.isDigit
  let r1 := cs.dropWhile Char.isDigit
  match r1 with
  | c :: rest =>
    if c = '.' then
      let fracDs := rest.takeWhile Char.isDigit
      let r2 := rest.dropWhile Char.isDigit
      if intDs.isEmpty && fracDs.isEmpty then none
      else some (digitsToNat (intDs ++ fracDs), fracDs.length, r2)
    else if intDs.isEmpty then none
    else some (digitsToNat intDs, 0, c :: rest)
  | [] =>
    if intDs.isEmpty then none
    else some (digitsToNat intDs, 0, [])

/-- Parse the optional exponent part `('e'|'E') sign? Digits` of Rust's
float grammar; the whole remainder must be consumed. -/
def parseExponent : List Char → Option Int
  | [] => some 0
  | c :: rest =>
    if c = 'e' || c = 'E' then
      let (neg, r) := splitSign rest
      let ds := r.takeWhile Char.isDigit
      let r2 := r.dropWhile Char.isDigit
      if ds.isEmpty || !r2.isEmpty then none
      else some (if neg then -(digitsToNat ds : Int) else (digitsToNat ds : Int))
    else none

/-- Model of Rust's `str::parse::<f64>()` on decimal literals: same
acceptance grammar (optional sign, significand with optional dot,
optional exponent, no surrounding whitespace), with the exact rational
value in place of the rounded binary double.  The `inf` / `infinity` /
`nan` word forms accepted by Rust are outside the model. -/
def parseNum (s : String) : Option ℚ :=
  let (neg, cs) := splitSign s.toList
  match parseMantissa cs with
  | none => none
  | some (m, scale, rest) =>
    match parseExponent rest with
    | none => none
    | some e =>
      let q : ℚ := mkRat ((m : Int) * 10 ^ e.toNat) (10 ^ scale * 10 ^ (-e).toNat)
      some (if neg then -q else q)

/-- Multiplicity of the factor `p` in `n`, with explicit fuel (intended
fuel: any bound with `n ≤ fuel`). -/
def factorCountAux (p : Nat) (fuel n : Nat) : Nat :=
  match fuel with
  | 0 => 0
  | fuel + 1 =>
    if 2 ≤ p ∧ n % p = 0 ∧ n ≠ 0 then factorCountAux p fuel (n / p) + 1 else 0

/-- Multiplicity of the factor `p` in `n` (zero when `p < 2` or `n = 0`). -/
def factorCount (p n : Nat) : Nat := factorCountAux p n n

/-- Number of decimal digits after the point when printing `q`: the
least `k` with `q.den ∣ 10 ^ k`, computed from the multiplicities of 2
and 5 in the reduced denominator. -/
def denExp (q : ℚ) : Nat := max (factorCount 2 q.den) (factorCount 5 q.den)

/-- Absolute value of `q` scaled to an integer: `|q| * 10 ^ denExp q`
(exact whenever `q.den` divides a power of ten). -/
def mantissaOf (q : ℚ) : Nat := q.num.natAbs * (10 ^ denExp q / q.den)

/-- Unsigned decimal rendering of `q` ("0", all digits, or
`digits.digits`). -/
def formatBody (q : ℚ) : String :=
  let k := denExp q
  let m := mantissaOf q
  if k = 0 then
    if m = 0 then "0" else String.mk (natToDigits m)
  else
    let ip := m / 10 ^ k
    let fp := m % 10 ^ k
    let ipStr := if ip = 0 then "0" else String.mk (natToDigits ip)
    let fpDigits := natToDigits fp
    ipStr ++ "." ++ String.mk (List.replicate (k - fpDigits.length) '0' ++ fpDigits)

/-- Model of Rust's `format!("{:}", x)` on a finite `f64`: the shortest
plain decimal string (never exponent notation).  On a rational whose
reduced denominator divides a power of ten — every finite `f64` value
prints as such a rational — this is the exact decimal expansion with no
trailing fractional zeros. -/
def formatNum (q : ℚ) : String := (if q.num < 0 then "-" else "") ++ formatBody q

/-! ## Data model (src/model.rs, src/error.rs)

`Product` and `Event` are the domain types; `Error` is the error enum.
Prices (`f64` in Rust) are exact rationals in the embedding.
-/

/-- Embedding of the error enum from src/error.rs (payload strings in
place of `&'static str` / formatted SDK messages). -/
inductive Error
  | InitError (msg : String)
  | ClientError (msg : String)
  | InternalError (msg : String)
  | SdkError (msg : String)
deriving DecidableEq, Repr

deriving instance DecidableEq for Except

/-- Embedding of `Product` from src/model.rs. -/
structure Product where
  id : String
  name : String
  price : ℚ
deriving DecidableEq, Repr

/-- Embedding of the `Event` enum from src/model.rs (serde-tagged by a
`type` field on the wire). -/
inductive Event
  | Created (product : Product)
  | Updated (old new : Product)
  | Deleted (product : Product)
deriving DecidableEq, Repr

/-- Embedding of `Event::id` from src/model.rs: the affected product's
id (for `Updated`, the id of `new`). -/
def Event.id : Event → String
  | .Created product => product.id
  | .Updated _ new => new.id
  | .Deleted product => product.id

/-! ## DynamoDB wire model (src/entrypoints/lambda/dynamodb/model.rs) -/

/-- Alias for the builtin booleans, usable where the name `Bool` is
shadowed by the `AttributeValue.Bool` constructor. -/
abbrev BoolVal := Bool

/-- Embedding of the `AttributeValue` enum from
src/entrypoints/lambda/dynamodb/model.rs (a serde copy of the SDK type,
without the blob variants). -/
inductive AttributeValue
  | Bool (b : Bool)
  | L (l : List AttributeValue)
  | M (m : List (String × AttributeValue))
  | N (n : String)
  | Ns (ns : List String)
  | Null (null : Bool)
  | S (s : String)
  | Ss (ss : List String)

/-- Association-list embedding of `HashMap<String, AttributeValue>`. -/
abbrev AttrMap := List (String × AttributeValue)

/-- Embedding of `HashMap::get`: first-match lookup (DynamoDB item maps
have unique keys). -/
def mapGet (m : AttrMap) (key : String) : Option AttributeValue :=
  match m with
  | [] => none
  | (k, v) :: rest => if k = key then some v else mapGet rest key

namespace AttributeValue

/-- Embedding of `AttributeValue::as_bool`. -/
def as_bool : AttributeValue → Option BoolVal
  | .Bool b => some b
  | _ => none

/-- Embedding of `AttributeValue::as_l`. -/
def as_l : AttributeValue → Option (List AttributeValue)
  | .L l => some l
  | _ => none

/-- Embedding of `AttributeValue::as_m`. -/
def as_m : AttributeValue → Option (List (String × AttributeValue))
  | .M m => some m
  | _ => none

/-- Embedding of `AttributeValue::as_n`: parse the stored string on
demand; `None` on a non-`N` variant or on parse failure. -/
def as_n : AttributeValue → Option ℚ
  | .N n => parseNum n
  | _ => none

/-- Embedding of `AttributeValue::as_ns`: parse each stored string,
silently dropping elements that fail to parse (`filter_map`), and
returning the empty default on a non-`Ns` variant. -/
def as_ns : AttributeValue → List ℚ
  | .Ns ns => ns.filterMap parseNum
  | _ => []

/-- Embedding of `AttributeValue::as_null`. -/
def as_null : AttributeValue → Option BoolVal
  | .Null null => some null
  | _ => none

/-- Embedding of `AttributeValue::as_s`. -/
def as_s : AttributeValue → Option String
  | .S s => some s
  | _ => none

/-- Embedding of `AttributeValue::as_ss`. -/
def as_ss : AttributeValue → List String
  | .Ss ss => ss
  | _ => []

end AttributeValue

/-- Embedding of `Option::ok_or` as used with the `?` operator: turn an
optional value into a result, with the given error on `None`. -/
def ok_or {α : Type} (o : Option α) (e : Error) : Except Error α :=
  match o with
  | some a => Except.ok a
  | none => Except.error e

/-- Embedding of `DynamoDBStreamRecord` from
src/entrypoints/lambda/dynamodb/model.rs.  The three map fields carry
`#[serde(default)]`; `deserializeStreamRecord` below models that
defaulting, so here the fields are already-materialized maps. -/
structure DynamoDBStreamRecord where
  approximate_creation_date_time : Option ℚ
  keys : AttrMap
  new_image : AttrMap
  old_image : AttrMap
  sequence_number : String
  size_bytes : ℚ
  stream_view_type : String

/-- Embedding of `DynamoDBRecord` from
src/entrypoints/lambda/dynamodb/model.rs. -/
structure DynamoDBRecord where
  aws_region : String
  dynamodb : DynamoDBStreamRecord
  event_id : String
  event_name : String
  event_source : String
  event_source_arn : String
  event_version : String

/-! ## Record decoding (src/entrypoints/lambda/dynamodb/ext.rs)

`Product::from_dynamodb` and `Event::from_dynamodb_record` are the
decoders used by the Lambda pipeline (`parse_events`).
-/

/-- Embedding of `Product::from_dynamodb` from
src/entrypoints/lambda/dynamodb/ext.rs: all three fields are required;
`id` and `name` must be the string variant, `price` must be the number
variant with a parsable payload. -/
def Product.from_dynamodb (item : AttrMap) : Except Error Product := do
  let idAttr ← ok_or (mapGet item "id") (Error.InternalError "id is missing")
  let id ← ok_or idAttr.as_s (Error.InternalError "id is missing")
  let nameAttr ← ok_or (mapGet item "name") (Error.InternalError "name is missing")
  let name ← ok_or nameAttr.as_s (Error.InternalError "name is missing")
  let priceAttr ← ok_or (mapGet item "price") (Error.InternalError "price is missing")
  let price ← ok_or priceAttr.as_n (Error.InternalError "price is missing")
  Except.ok { id := id, name := name, price := price }

/-- Embedding of `Event::from_dynamodb_record` from
src/entrypoints/lambda/dynamodb/ext.rs: dispatch on `event_name`. -/
def Event.from_dynamodb_record (record : DynamoDBRecord) : Except Error Event :=
  if record.event_name = "INSERT" then do
    let product ← Product.from_dynamodb record.dynamodb.new_image
    Except.ok (Event.Created product)
  else if record.event_name = "MODIFY" then do
    let old ← Product.from_dynamodb record.dynamodb.old_image
    let new ← Product.from_dynamodb record.dynamodb.new_image
    Except.ok (Event.Updated old new)
  else if record.event_name = "REMOVE" then do
    let product ← Product.from_dynamodb record.dynamodb.old_image
    Except.ok (Event.Deleted product)
  else Except.error (Error.InternalError "Unknown event type")

/-! ## Record decoding, serde-model copy
(src/entrypoints/lambda/dynamodb/model.rs)

The same repository revision also carries `TryFrom` impls in model.rs
that duplicate the ext.rs decoders with different error messages; both
are embedded because the claims cite both.
-/

/-- Embedding of `TryFrom<&HashMap<String, AttributeValue>> for Product`
from src/entrypoints/lambda/dynamodb/model.rs. -/
def Product.tryFromItem (value : AttrMap) : Except Error Product := do
  let idAttr ← ok_or (mapGet value "id") (Error.InternalError "Missing id")
  let id ← ok_or idAttr.as_s (Error.InternalError "id is not a string")
  let nameAttr ← ok_or (mapGet value "name") (Error.InternalError "Missing name")
  let name ← ok_or nameAttr.as_s (Error.InternalError "name is not a string")
  let priceAttr ← ok_or (mapGet value "price") (Error.InternalError "Missing price")
  let price ← ok_or priceAttr.as_n (Error.InternalError "price is not a number")
  Except.ok { id := id, name := name, price := price }

/-- Embedding of `TryFrom<&DynamoDBRecord> for Event` from
src/entrypoints/lambda/dynamodb/model.rs. -/
def Event.tryFromRecord (value : DynamoDBRecord) : Except Error Event :=
  if value.event_name = "INSERT" then do
    let product ← Product.tryFromItem value.dynamodb.new_image
    Except.ok (Event.Created product)
  else if value.event_name = "MODIFY" then do
    let old ← Product.tryFromItem value.dynamodb.old_image
    let new ← Product.tryFromItem value.dynamodb.new_image
    Except.ok (Event.Updated old new)
  else if value.event_name = "REMOVE" then do
    let product ← Product.tryFromItem value.dynamodb.old_image
    Except.ok (Event.Deleted product)
  else Except.error (Error.InternalError "Unknown event type")

/-! ## Serde defaulting of absent image maps -/

/-- Wire-level form of `DynamoDBStreamRecord`, before serde defaulting:
`Keys`, `NewImage` and `OldImage` may be entirely absent from the JSON
payload (`none`). -/
structure WireStreamRecord where
  approximate_creation_date_time : Option ℚ
  keys : Option AttrMap
  new_image : Option AttrMap
  old_image : Option AttrMap
  sequence_number : String
  size_bytes : ℚ
  stream_view_type : String

/-- Model of serde deserialization of `DynamoDBStreamRecord` with
`#[serde(default)]` on `Keys` / `NewImage` / `OldImage`: an absent map
field deserializes to the empty map; deserialization of these fields
never fails. -/
def deserializeStreamRecord (w : WireStreamRecord) : DynamoDBStreamRecord :=
  { approximate_creation_date_time := w.approximate_creation_date_time
    keys := w.keys.getD []
    new_image := w.new_image.getD []
    old_image := w.old_image.getD []
    sequence_number := w.sequence_number
    size_bytes := w.size_bytes
    stream_view_type := w.stream_view_type }

/-! ## EventBridge rendering (src/event_bus/eventbridge/ext.rs)

The `Detail` payload is `serde_json::to_string(event)`; the embedding
keeps the JSON document as a tree (`Json`) rather than its printed
string, with object fields in serde's emission order.
-/

/-- Minimal JSON document tree for the serialized event payloads. -/
inductive Json
  | str (s : String)
  | num (q : ℚ)
  | bool (b : Bool)
  | null
  | arr (elems : List Json)
  | obj (fields : List (String × Json))

/-- Serde serialization of `Product` (field order as declared). -/
def Product.toJson (p : Product) : Json :=
  Json.obj [("id", Json.str p.id), ("name", Json.str p.name), ("price", Json.num p.price)]

/-- Serde serialization of `Event` with `#[serde(tag = "type")]`: the
discriminator field `type` holds the variant name, followed by the
variant's fields in declaration order. -/
def Event.toJson : Event → Json
  | .Created product => Json.obj [("type", Json.str "Created"), ("product", product.toJson)]
  | .Updated old new =>
    Json.obj [("type", Json.str "Updated"), ("old", old.toJson), ("new", new.toJson)]
  | .Deleted product => Json.obj [("type", Json.str "Deleted"), ("product", product.toJson)]

/-- Embedding of the SDK's `PutEventsRequestEntry` (the builder leaves
every field optional; `detail` is kept as a JSON tree). -/
structure PutEventsRequestEntry where
  event_bus_name : Option String
  source : Option String
  detail_type : Option String
  resources : Option (List String)
  detail : Option Json

/-- The fixed source identifier `SOURCE` from
src/event_bus/eventbridge/ext.rs. -/
def SOURCE : String := "rust-products"

/-- Embedding of `Event::to_eventbridge` from
src/event_bus/eventbridge/ext.rs. -/
def Event.to_eventbridge (e : Event) (bus_name : String) : PutEventsRequestEntry :=
  { event_bus_name := some bus_name
    source := some SOURCE
    detail_type := some (match e with
      | .Created _ => "ProductCreated"
      | .Updated _ _ => "ProductUpdated"
      | .Deleted _ => "ProductDeleted")
    resources := some [e.id]
    detail := some e.toJson }

/-! ## Batch publishing (src/event_bus/eventbridge/mod.rs)

`EventBridgeBus::send_events` splits the event list into chunks of at
most 10 (`slice::chunks(10)`), dispatches every chunk (`join_all`
submits all batches; none is withheld on another's failure), then
collects the results, failing with the first error in batch order.

The bus client is modelled as an oracle `bus` mapping a submitted entry
list to that submission's result; `send_events` returns the overall
result together with the list of submissions dispatched.
-/

/-- Embedding of `slice::chunks`: partition into consecutive chunks of
size `n`, the last possibly shorter; fuel-based for structural
recursion (intended fuel: any bound with `l.length ≤ fuel`). -/
def chunksOfAux {α : Type} (n : Nat) (fuel : Nat) (l : List α) : List (List α) :=
  match fuel with
  | 0 => []
  | fuel + 1 =>
    match l with
    | [] => []
    | _ => l.take n :: chunksOfAux n fuel (l.drop n)

/-- Partition `l` into consecutive chunks of size `n` (`n = 0` yields no
chunks; `slice::chunks(0)` panics in Rust and is never called). -/
def chunksOf {α : Type} (n : Nat) (l : List α) : List (List α) :=
  if n = 0 then [] else chunksOfAux n l.length l

/-- Embedding of `Iterator::collect::<Result<Vec<_>, _>>`: succeed with
all values, or fail with the first error in order. -/
def collectResults {α : Type} : List (Except Error α) → Except Error (List α)
  | [] => Except.ok []
  | r :: rs =>
    match r with
    | Except.error e => Except.error e
    | Except.ok a =>
      match collectResults rs with
      | Except.error e => Except.error e
      | Except.ok rest => Except.ok (a :: rest)

/-- First error of a result list, in order (specification helper). -/
def firstErrorOf : List (Except Error Unit) → Option Error
  | [] => none
  | Except.error e :: _ => some e
  | Except.ok _ :: rs => firstErrorOf rs

/-- Embedding of `EventBridgeBus::send_events` from
src/event_bus/eventbridge/mod.rs: chunk into batches of 10, render each
event with `to_eventbridge`, dispatch every batch to the bus, and
collect the results into one overall result.  Returns the overall
result and the dispatched submissions. -/
def EventBridgeBus.send_events
    (bus : List PutEventsRequestEntry → Except Error Unit)
    (bus_name : String) (events : List Event) :
    Except Error Unit × List (List PutEventsRequestEntry) :=
  let submissions :=
    (chunksOf 10 events).map (fun chunk => chunk.map (fun e => e.to_eventbridge bus_name))
  let res := submissions.map bus
  (match collectResults res with
   | Except.error e => Except.error e
   | Except.ok _ => Except.ok (), submissions)

/-! ## CDC pipeline entrypoint (src/entrypoints/lambda/dynamodb/mod.rs)

`parse_events` decodes every record (rayon `par_iter` with
`collect::<Result<Vec<_>, _>>`: all-or-nothing, modelled sequentially —
decoding is pure, so parallelism only affects which error is reported,
not whether one is) and only then hands the full event list to
`service.send_events`.  The service is modelled as an oracle `publish`
returning its result and its dispatched submissions.
-/

/-- Embedding of `parse_events` from
src/entrypoints/lambda/dynamodb/mod.rs. -/
def parse_events
    (publish : List Event → Except Error Unit × List (List PutEventsRequestEntry))
    (records : List DynamoDBRecord) :
    Except Error Unit × List (List PutEventsRequestEntry) :=
  match collectResults (records.map Event.from_dynamodb_record) with
  | Except.error e => (Except.error e, [])
  | Except.ok events => publish events

/-! ## Store-side codec (src/store/dynamodb/ext.rs, productext.rs)

The CRUD store converts `Product` to and from DynamoDB items; `price`
is encoded with `format!("{:}", price)` (plain decimal, `formatNum`)
and decoded with `parse::<f64>()` (`parseNum`).
-/

namespace Store

/-- Embedding of `AttributeValuesExt::get_s` from
src/store/dynamodb/ext.rs. -/
def get_s (m : AttrMap) (key : String) : Option String := do
  let v ← mapGet m key
  v.as_s

/-- Embedding of `AttributeValuesExt::get_n` from
src/store/dynamodb/ext.rs: the SDK `as_n` exposes the raw string, which
is then parsed. -/
def get_n (m : AttrMap) (key : String) : Option ℚ := do
  let v ← mapGet m key
  match v with
  | AttributeValue.N n => parseNum n
  | _ => none

/-- Embedding of `ProductsExt::from_dynamodb` from
src/store/dynamodb/productext.rs. -/
def Product.from_dynamodb (value : AttrMap) : Except Error Product := do
  let id ← ok_or (get_s value "id") (Error.InternalError "Missing id")
  let name ← ok_or (get_s value "name") (Error.InternalError "Missing name")
  let price ← ok_or (get_n value "price") (Error.InternalError "Missing price")
  Except.ok { id := id, name := name, price := price }

/-- Embedding of `ProductsExt::to_dynamodb` from
src/store/dynamodb/productext.rs: a three-entry map, the price rendered
as a plain decimal string. -/
def Product.to_dynamodb (p : Product) : AttrMap :=
  [("id", AttributeValue.S p.id),
   ("name", AttributeValue.S p.name),
   ("price", AttributeValue.N (formatNum p.price))]

end Store

/-! ## Specification helpers and sample inputs -/

/-- Specification helper: the item has `key` mapped to a string-variant
value. -/
def hasS (item : AttrMap) (key : String) : Prop :=
  ∃ s, mapGet item key = some (AttributeValue.S s)

/-- Specification helper: the item has `key` mapped to a number-variant
value whose payload parses. -/
def hasParsableN (item : AttrMap) (key : String) : Prop :=
  ∃ n q, mapGet item key = some (AttributeValue.N n) ∧ parseNum n = some q

/-- Specification helper: the serde variant name of an event (the value
of the `type` discriminator field). -/
def variantName : Event → String
  | .Created _ => "Created"
  | .Updated _ _ => "Updated"
  | .Deleted _ => "Deleted"

/-- Sample DynamoDB record with the given event kind and images (other
metadata as in the repository's test payload). -/
def mkDdbRecord (name : String) (oldI newI : AttrMap) : DynamoDBRecord :=
  { aws_region := "us-west-2"
    dynamodb :=
      { approximate_creation_date_time := none
        keys := [("id", AttributeValue.S "101")]
        new_image := newI
        old_image := oldI
        sequence_number := "111"
        size_bytes := 26
        stream_view_type := "NEW_AND_OLD_IMAGES" }
    event_id := "1"
    event_name := name
    event_source := "aws:dynamodb"
    event_source_arn := "someARN"
    event_version := "1.1" }

/-- Sample item decoding to `Product "1" "a" 10.5`. -/
def goodItem : AttrMap :=
  [("id", AttributeValue.S "1"), ("name", AttributeValue.S "a"),
   ("price", AttributeValue.N "10.5")]

/-- Sample item whose `price` payload does not parse. -/
def badPriceItem : AttrMap :=
  [("id", AttributeValue.S "2"), ("name", AttributeValue.S "b"),
   ("price", AttributeValue.N "xx")]

/-- Sample event list of length `n` (distinct product ids). -/
def mkEvents (n : Nat) : List Event :=
  (List.range n).map (fun i => Event.Created { id := toString i, name := "p", price := 1 })

/-- Sample bus oracle that rejects the (unique) batch of five entries
and accepts every other batch. -/
def busFailOn5 : List PutEventsRequestEntry → Except Error Unit :=
  fun entries =>
    if entries.length = 5 then Except.error (Error.SdkError "batch failed") else Except.ok ()

/-- Sample publisher oracle recording its input as one submission. -/
def samplePublish : List Event → Except Error Unit × List (List PutEventsRequestEntry) :=
  fun events => (Except.ok (), [events.map (fun e => e.to_eventbridge "test-bus")])

/-! ## Basic lemmas -/

@[simp] theorem ok_or_some {α : Type} (a : α) (e : Error) : ok_or (some a) e = Except.ok a := rfl

@[simp] theorem ok_or_none {α : Type} (e : Error) : ok_or (none : Option α) e = Except.error e := rfl

@[simp] theorem ok_bind {α β : Type} (a : α) (f : α → Except Error β) :
    (Except.ok a >>= f) = f a := rfl

@[simp] theorem error_bind {α β : Type} (e : Error) (f : α → Except Error β) :
    ((Except.error e : Except Error α) >>= f) = Except.error e := rfl

example : parseNum "10.5" = some (mkRat 21 2) := by decide
example : parseNum "-0.25" = some (mkRat (-1) 4) := by decide
example : parseNum "1e2" = some (100 : ℚ) := by decide
example : parseNum "abc" = none := by decide
example : parseNum "" = none := by decide
example : parseNum "1.2.3" = none := by decide
example : formatNum (mkRat 21 2) = "10.5" := by decide
example : formatNum (10 : ℚ) = "10" := by decide
example : formatNum (0 : ℚ) = "0" := by decide
example : formatNum (mkRat (-1) 4) = "-0.25" := by decide

/-! ## C6: rendering of a bus entry -/

/-- C6: for every event, the rendered bus entry carries the fixed
source identifier, a detail-type selected by the variant
(`ProductCreated` / `ProductUpdated` / `ProductDeleted`), a resources
list `[event.id]` where `Event.id` returns the affected product's id
(for `Updated`, the id of `new`), and a detail payload equal to the
event's serde JSON form, tagged by a leading `type` discriminator field
holding the variant name. -/
theorem to_eventbridge_entry_shape (bus_name : String) :
    (∀ e : Event, (e.to_eventbridge bus_name).source = some SOURCE) ∧
    (∀ e : Event, (e.to_eventbridge bus_name).event_bus_name = some bus_name) ∧
    (∀ p, ((Event.Created p).to_eventbridge bus_name).detail_type = some "ProductCreated") ∧
    (∀ old new, ((Event.Updated old new).to_eventbridge bus_name).detail_type
      = some "ProductUpdated") ∧
    (∀ p, ((Event.Deleted p).to_eventbridge bus_name).detail_type = some "ProductDeleted") ∧
    (∀ e : Event, (e.to_eventbridge bus_name).resources = some [e.id]) ∧
    (∀ p, (Event.Created p).id = p.id) ∧
    (∀ old new, (Event.Updated old new).id = new.id) ∧
    (∀ p, (Event.Deleted p).id = p.id) ∧
    (∀ e : Event, (e.to_eventbridge bus_name).detail = some e.toJson) ∧
    (∀ e : Event, ∃ rest, e.toJson = Json.obj (("type", Json.str (variantName e)) :: rest)) := by
  exact ⟨fun e => rfl, fun e => rfl, fun p => rfl, fun old new => rfl, fun p => rfl,
    fun e => rfl, fun p => rfl, fun old new => rfl, fun p => rfl, fun e => rfl,
    fun e => by cases e <;> exact ⟨_, rfl⟩⟩

/-! ## C7: empty publish -/

/-- C7: `send_events` on the empty event list dispatches zero
submissions and returns success, for every bus oracle. -/
theorem send_events_empty (bus : List PutEventsRequestEntry → Except Error Unit)
    (bus_name : String) :
    EventBridgeBus.send_events bus bus_name [] = (Except.ok (), []) := rfl

@[simp] theorem bind_pure_eq_map {α β : Type} (x : Except Error α) (f : α → β) :
    (x >>= fun a => Except.ok (f a)) = x.map f := by
  cases x <;> rfl

/-! ## C1: record decoder keyed on the event kind -/

/-- C1: the record decoder dispatches on the event kind.  `INSERT`
decodes the new image as a Product into `Created`; `MODIFY` decodes the
old image and the new image (either failing fails the whole record)
into `Updated`; `REMOVE` decodes the old image into `Deleted`; any
other kind fails with the unknown-event-kind error rather than being
skipped.  Both the ext.rs decoder (`Event.from_dynamodb_record`, the
one used by the pipeline) and its model.rs copy (`Event.tryFromRecord`)
are covered. -/
theorem record_decoder_keyed_on_kind (r : DynamoDBRecord) :
    (r.event_name = "INSERT" →
      Event.from_dynamodb_record r = (Product.from_dynamodb r.dynamodb.new_image).map Event.Created ∧
      Event.tryFromRecord r = (Product.tryFromItem r.dynamodb.new_image).map Event.Created) ∧
    (r.event_name = "MODIFY" →
      (∀ old new, Product.from_dynamodb r.dynamodb.old_image = Except.ok old →
        Product.from_dynamodb r.dynamodb.new_image = Except.ok new →
        Event.from_dynamodb_record r = Except.ok (Event.Updated old new)) ∧
      (∀ e, Product.from_dynamodb r.dynamodb.old_image = Except.error e →
        Event.from_dynamodb_record r = Except.error e) ∧
      (∀ old e, Product.from_dynamodb r.dynamodb.old_image = Except.ok old →
        Product.from_dynamodb r.dynamodb.new_image = Except.error e →
        Event.from_dynamodb_record r = Except.error e) ∧
      (∀ old new, Product.tryFromItem r.dynamodb.old_image = Except.ok old →
        Product.tryFromItem r.dynamodb.new_image = Except.ok new →
        Event.tryFromRecord r = Except.ok (Event.Updated old new)) ∧
      (∀ e, Product.tryFromItem r.dynamodb.old_image = Except.error e →
        Event.tryFromRecord r = Except.error e) ∧
      (∀ old e, Product.tryFromItem r.dynamodb.old_image = Except.ok old →
        Product.tryFromItem r.dynamodb.new_image = Except.error e →
        Event.tryFromRecord r = Except.error e)) ∧
    (r.event_name = "REMOVE" →
      Event.from_dynamodb_record r = (Product.from_dynamodb r.dynamodb.old_image).map Event.Deleted ∧
      Event.tryFromRecord r = (Product.tryFromItem r.dynamodb.old_image).map Event.Deleted) ∧
    (r.event_name ≠ "INSERT" → r.event_name ≠ "MODIFY" → r.event_name ≠ "REMOVE" →
      Event.from_dynamodb_record r = Except.error (Error.InternalError "Unknown event type") ∧
      Event.tryFromRecord r = Except.error (Error.InternalError "Unknown event type")) := by
  refine ⟨fun h => ?_, fun h => ?_, fun h => ?_, fun h1 h2 h3 => ?_⟩
  · constructor <;> simp [Event.from_dynamodb_record, Event.tryFromRecord, h]
  · refine ⟨fun old new h1 h2 => ?_, fun e h1 => ?_, fun old e h1 h2 => ?_,
      fun old new h1 h2 => ?_, fun e h1 => ?_, fun old e h1 h2 => ?_⟩
    · simp [Event.from_dynamodb_record, h, h1, h2, Except.map]
    · simp [Event.from_dynamodb_record, h, h1]
    · simp [Event.from_dynamodb_record, h, h1, h2, Except.map]
    · simp [Event.tryFromRecord, h, h1, h2, Except.map]
    · simp [Event.tryFromRecord, h, h1]
    · simp [Event.tryFromRecord, h, h1, h2, Except.map]
  · constructor <;> simp [Event.from_dynamodb_record, Event.tryFromRecord, h]
  · constructor <;> simp [Event.from_dynamodb_record, Event.tryFromRecord, h1, h2, h3]

/-- Witness for C1: a concrete `INSERT` record decodes to `Created`,
and a concrete unrecognized kind (`REPLICATE`) fails with the
unknown-event-kind error. -/
theorem record_decoder_keyed_on_kind_witness :
    Event.from_dynamodb_record (mkDdbRecord "INSERT" [] goodItem)
      = Except.ok (Event.Created { id := "1", name := "a", price := mkRat 21 2 }) ∧
    Event.from_dynamodb_record (mkDdbRecord "REPLICATE" [] goodItem)
      = Except.error (Error.InternalError "Unknown event type") := by
  constructor
  · have h := (record_decoder_keyed_on_kind (mkDdbRecord "INSERT" [] goodItem)).1 rfl
    rw [h.1]
    decide
  · exact ((record_decoder_keyed_on_kind (mkDdbRecord "REPLICATE" [] goodItem)).2.2.2
      (by decide) (by decide) (by decide)).1

/-! ## C10: serde defaulting of absent image maps -/

/-- C10: deserialization with `#[serde(default)]` turns an entirely
absent `Keys` / `NewImage` / `OldImage` field into the empty map (and
is total — `deserializeStreamRecord` is a plain function, so no record
with absent image maps can panic or fail to deserialize); a decode that
then needs the absent image fails with the missing-id field error of
the product decoder, not a distinct missing-image error. -/
theorem absent_image_defaults_to_missing_id (w : WireStreamRecord) (r : DynamoDBRecord)
    (hr : r.dynamodb = deserializeStreamRecord w) :
    (w.keys = none → (deserializeStreamRecord w).keys = []) ∧
    (w.new_image = none → (deserializeStreamRecord w).new_image = []) ∧
    (w.old_image = none → (deserializeStreamRecord w).old_image = []) ∧
    (w.new_image = none → r.event_name = "INSERT" →
      Event.from_dynamodb_record r = Except.error (Error.InternalError "id is missing")) ∧
    (w.old_image = none → r.event_name = "MODIFY" →
      Event.from_dynamodb_record r = Except.error (Error.InternalError "id is missing")) ∧
    (w.old_image = none → r.event_name = "REMOVE" →
      Event.from_dynamodb_record r = Except.error (Error.InternalError "id is missing")) := by
  refine ⟨fun h => ?_, fun h => ?_, fun h => ?_,
    fun h hk => ?_, fun h hk => ?_, fun h hk => ?_⟩
  · simp [deserializeStreamRecord, h]
  · simp [deserializeStreamRecord, h]
  · simp [deserializeStreamRecord, h]
  all_goals
    simp [deserializeStreamRecord, h, Event.from_dynamodb_record, hk, hr,
      Product.from_dynamodb, mapGet, Except.map]

/-- Witness for C10: a concrete `INSERT` record whose wire payload has
no `NewImage` field decodes to the missing-id error. -/
theorem absent_image_defaults_to_missing_id_witness :
    Event.from_dynamodb_record
      { mkDdbRecord "INSERT" [] [] with
        dynamodb := deserializeStreamRecord
          { approximate_creation_date_time := none
            keys := some [("id", AttributeValue.S "101")]
            new_image := none
            old_image := none
            sequence_number := "111"
            size_bytes := 26
            stream_view_type := "KEYS_ONLY" } }
      = Except.error (Error.InternalError "id is missing") :=
  (absent_image_defaults_to_missing_id
    { approximate_creation_date_time := none
      keys := some [("id", AttributeValue.S "101")]
      new_image := none
      old_image := none
      sequence_number := "111"
      size_bytes := 26
      stream_view_type := "KEYS_ONLY" }
    _ rfl).2.2.2.1 rfl rfl

/-! ## C9 (corrected): parse failures in numeric accessors -/

/-- Counterexample to C9 as stated: for the number-set variant, an
unparsable element is NOT a decode error — `as_ns` silently drops it
(`filter_map`), and a non-set variant yields the empty default rather
than an error.  Here `Ns ["abc", "1"]` "decodes" to `[1]` with the
unparsable `"abc"` dropped. -/
theorem as_ns_silently_drops_unparsable :
    AttributeValue.as_ns (AttributeValue.Ns ["abc", "1"]) = [(1 : ℚ)] ∧
    AttributeValue.as_ns (AttributeValue.Bool true) = [] ∧
    parseNum "abc" = none := by
  refine ⟨?_, rfl, by decide⟩
  show List.filterMap parseNum ["abc", "1"] = [(1 : ℚ)]
  decide

/-- C9 as amended: for the single-number variant, the stored string is
parsed on demand and a parse failure is a decode error (`as_n` returns
`none`, never a silent zero or default); for the number-set variant,
however, unparsable elements are silently dropped (`filter_map`). -/
theorem as_n_parse_failure_is_decode_error :
    (∀ s : String, AttributeValue.as_n (AttributeValue.N s) = parseNum s) ∧
    (∀ s : String, parseNum s = none → AttributeValue.as_n (AttributeValue.N s) = none) ∧
    (∀ ss : List String, AttributeValue.as_ns (AttributeValue.Ns ss) = ss.filterMap parseNum) :=
  ⟨fun _ => rfl, fun _ h => h, fun _ => rfl⟩

/-- Witness for the amended C9 at the unparsable payload `"abc"`. -/
theorem as_n_parse_failure_is_decode_error_witness :
    AttributeValue.as_n (AttributeValue.N "abc") = none :=
  as_n_parse_failure_is_decode_error.2.1 "abc" (by decide)

/-! ## C2: all-or-nothing decode stage of the pipeline -/

/-- Helper: `collectResults` errs when some element errs. -/
theorem collectResults_error_of_mem {α : Type} (rs : List (Except Error α))
    (h : ∃ r ∈ rs, r.isOk = false) :
    ∃ e, collectResults rs = Except.error e := by
  induction rs with
  | nil => obtain ⟨r, hm, _⟩ := h; cases hm
  | cons r rs ih =>
    obtain ⟨x, hx, hne⟩ := h
    cases r with
    | error e => exact ⟨e, rfl⟩
    | ok a =>
      rcases List.mem_cons.mp hx with hx | hx
      · rw [hx] at hne; simp [Except.isOk, Except.toBool] at hne
      · obtain ⟨e, he⟩ := ih ⟨x, hx, hne⟩
        exact ⟨e, by simp [collectResults, he]⟩

/-- C2: the pipeline decodes every record before publishing anything.
If any record fails to decode, the invocation fails with zero
submissions; if all records decode, the full event list is handed to
the publisher and the publisher's outcome (including its failures) is
returned unchanged. -/
theorem pipeline_all_or_nothing_decode
    (publish : List Event → Except Error Unit × List (List PutEventsRequestEntry))
    (records : List DynamoDBRecord) :
    ((∃ r ∈ records, (Event.from_dynamodb_record r).isOk = false) →
      ∃ e, parse_events publish records = (Except.error e, [])) ∧
    (∀ events, collectResults (records.map Event.from_dynamodb_record) = Except.ok events →
      parse_events publish records = publish events) := by
  constructor
  · intro h
    obtain ⟨e, he⟩ := collectResults_error_of_mem (records.map Event.from_dynamodb_record)
      (by
        obtain ⟨r, hr, hne⟩ := h
        exact ⟨Event.from_dynamodb_record r, List.mem_map_of_mem _ hr, hne⟩)
    exact ⟨e, by simp [parse_events, he]⟩
  · intro events h
    simp [parse_events, h]

/-- Witness for C2: with one malformed record among two, the pipeline
fails with zero submissions; with both records well-formed, the full
two-event list reaches the publisher. -/
theorem pipeline_all_or_nothing_decode_witness :
    (∃ e, parse_events samplePublish
        [mkDdbRecord "INSERT" [] goodItem, mkDdbRecord "INSERT" [] badPriceItem]
      = (Except.error e, [])) ∧
    parse_events samplePublish
        [mkDdbRecord "INSERT" [] goodItem, mkDdbRecord "REMOVE" goodItem []]
      = samplePublish [Event.Created { id := "1", name := "a", price := mkRat 21 2 },
          Event.Deleted { id := "1", name := "a", price := mkRat 21 2 }] := by
  constructor
  · exact (pipeline_all_or_nothing_decode samplePublish
      [mkDdbRecord "INSERT" [] goodItem, mkDdbRecord "INSERT" [] badPriceItem]).1
      ⟨mkDdbRecord "INSERT" [] badPriceItem, by simp, by decide⟩
  · exact (pipeline_all_or_nothing_decode samplePublish
      [mkDdbRecord "INSERT" [] goodItem, mkDdbRecord "REMOVE" goodItem []]).2 _ (by decide)

/-! ## Chunking lemmas (C4, C3) -/

theorem chunksOfAux_nil {α : Type} (n fuel : Nat) : chunksOfAux n fuel ([] : List α) = [] := by
  cases fuel <;> rfl

theorem chunksOfAux_cons {α : Type} (n fuel : Nat) (x : α) (xs : List α) :
    chunksOfAux n (fuel + 1) (x :: xs)
      = (x :: xs).take n :: chunksOfAux n fuel ((x :: xs).drop n) := rfl

theorem chunksOfAux_join {α : Type} (n : Nat) (hn : 0 < n) :
    ∀ (fuel : Nat) (l : List α), l.length ≤ fuel → (chunksOfAux n fuel l).flatten = l := by
  intro fuel
  induction fuel with
  | zero =>
    intro l hl
    rw [List.length_eq_zero.mp (Nat.le_zero.mp hl)]
    rfl
  | succ fuel ih =>
    intro l hl
    cases l with
    | nil => rfl
    | cons x xs =>
      rw [chunksOfAux_cons, List.flatten_cons, ih ((x :: xs).drop n) ?_,
        List.take_append_drop]
      simp only [List.length_drop, List.length_cons]
      simp only [List.length_cons] at hl
      omega

theorem chunksOfAux_mem {α : Type} (n : Nat) (hn : 0 < n) :
    ∀ (fuel : Nat) (l : List α) (c : List α), l.length ≤ fuel →
      c ∈ chunksOfAux n fuel l → c.length ≤ n ∧ c ≠ [] := by
  intro fuel
  induction fuel with
  | zero =>
    intro l c hl hc
    rw [List.length_eq_zero.mp (Nat.le_zero.mp hl), chunksOfAux_nil] at hc
    cases hc
  | succ fuel ih =>
    intro l c hl hc
    cases l with
    | nil => rw [chunksOfAux_nil] at hc; cases hc
    | cons x xs =>
      rw [chunksOfAux_cons] at hc
      simp only [List.length_cons] at hl
      rcases List.mem_cons.mp hc with hc | hc
      · subst hc
        constructor
        · rw [List.length_take]; omega
        · intro hcon
          have hlt := congrArg List.length hcon
          rw [List.length_take] at hlt
          simp only [List.length_cons, List.length_nil] at hlt
          omega
      · refine ih ((x :: xs).drop n) c ?_ hc
        simp only [List.length_drop, List.length_cons]
        omega

theorem chunksOfAux_dropLast {α : Type} (n : Nat) (hn : 0 < n) :
    ∀ (fuel : Nat) (l : List α) (c : List α), l.length ≤ fuel →
      c ∈ (chunksOfAux n fuel l).dropLast → c.length = n := by
  intro fuel
  induction fuel with
  | zero =>
    intro l c hl hc
    rw [List.length_eq_zero.mp (Nat.le_zero.mp hl), chunksOfAux_nil] at hc
    cases hc
  | succ fuel ih =>
    intro l c hl hc
    cases l with
    | nil => rw [chunksOfAux_nil] at hc; cases hc
    | cons x xs =>
      rw [chunksOfAux_cons] at hc
      simp only [List.length_cons] at hl
      rcases hrest : chunksOfAux n fuel ((x :: xs).drop n) with _ | ⟨r, rs⟩
      · rw [hrest] at hc
        cases hc
      · rw [hrest, List.dropLast_cons₂] at hc
        rcases List.mem_cons.mp hc with hc | hc
        · subst hc
          have hne : (x :: xs).drop n ≠ [] := by
            intro hnil
            rw [hnil, chunksOfAux_nil] at hrest
            cases hrest
          have hlen : n < (x :: xs).length := by
            by_contra hcon
            exact hne (List.drop_eq_nil_of_le (by omega))
          simp only [List.length_cons] at hlen
          rw [List.length_take]
          simp only [List.length_cons]
          omega
        · refine ih ((x :: xs).drop n) c ?_ (hrest ▸ hc)
          simp only [List.length_drop, List.length_cons]
          omega

theorem chunksOfAux_length_ten {α : Type} :
    ∀ (fuel : Nat) (l : List α), l.length ≤ fuel →
      (chunksOfAux 10 fuel l).length = (l.length + 9) / 10 := by
  intro fuel
  induction fuel with
  | zero =>
    intro l hl
    rw [List.length_eq_zero.mp (Nat.le_zero.mp hl), chunksOfAux_nil]
    simp
  | succ fuel ih =>
    intro l hl
    cases l with
    | nil => rw [chunksOfAux_nil]; simp
    | cons x xs =>
      rw [chunksOfAux_cons, List.length_cons, ih ((x :: xs).drop 10) ?_]
      · simp only [List.length_drop, List.length_cons]
        omega
      · simp only [List.length_drop, List.length_cons]
        simp only [List.length_cons] at hl
        omega

/-! ## C4: batching shape -/

/-- C4: batching into chunks of at most 10 preserves input order (the
concatenation of the chunks is the original sequence), every chunk is
nonempty with at most 10 elements, every chunk except possibly the last
has exactly 10, and the number of chunks is the ceiling of N/10 (so 0,
1, 10, 11 and 25 events yield 0, 1, 1, 2 and 3 chunks). -/
theorem event_batching_shape (events : List Event) :
    (chunksOf 10 events).flatten = events ∧
    (∀ c ∈ chunksOf 10 events, c.length ≤ 10 ∧ c ≠ []) ∧
    (∀ c ∈ (chunksOf 10 events).dropLast, c.length = 10) ∧
    (chunksOf 10 events).length = (events.length + 9) / 10 := by
  refine ⟨?_, fun c hc => ?_, fun c hc => ?_, ?_⟩
  · exact chunksOfAux_join 10 (by omega) events.length events le_rfl
  · exact chunksOfAux_mem 10 (by omega) events.length events c le_rfl
      (by simpa [chunksOf] using hc)
  · exact chunksOfAux_dropLast 10 (by omega) events.length events c le_rfl
      (by simpa [chunksOf] using hc)
  · simpa [chunksOf] using chunksOfAux_length_ten events.length events le_rfl

/-- Witness for C4 at concrete sizes: 0, 1, 10, 11 and 25 events yield
0, 1, 1, 2 and 3 chunks; the 25-event batching concatenates back to the
input, and the concrete first chunk (the first ten events) has length
at most 10 and is nonempty. -/
theorem event_batching_shape_witness :
    (chunksOf 10 (mkEvents 0)).length = 0 ∧
    (chunksOf 10 (mkEvents 1)).length = 1 ∧
    (chunksOf 10 (mkEvents 10)).length = 1 ∧
    (chunksOf 10 (mkEvents 11)).length = 2 ∧
    (chunksOf 10 (mkEvents 25)).length = 3 ∧
    (chunksOf 10 (mkEvents 25)).flatten = mkEvents 25 ∧
    ((mkEvents 25).take 10).length ≤ 10 ∧ (mkEvents 25).take 10 ≠ [] := by
  refine ⟨by decide, by decide, by decide, by decide, by decide,
    (event_batching_shape (mkEvents 25)).1, ?_, ?_⟩
  · exact ((event_batching_shape (mkEvents 25)).2.1 ((mkEvents 25).take 10) (by decide)).1
  · exact ((event_batching_shape (mkEvents 25)).2.1 ((mkEvents 25).take 10) (by decide)).2

/-! ## C3: batch dispatch and error aggregation -/

/-- Helper: collecting unit results is equivalent to reporting the
first error in order, success otherwise. -/
theorem collectResults_eq_firstError (rs : List (Except Error Unit)) :
    (match collectResults rs with
     | Except.error e => (Except.error e : Except Error Unit)
     | Except.ok _ => Except.ok ())
      = (match firstErrorOf rs with
         | some e => Except.error e
         | none => Except.ok ()) := by
  induction rs with
  | nil => rfl
  | cons r rs ih =>
    cases r with
    | error e => rfl
    | ok a =>
      rw [show firstErrorOf (Except.ok a :: rs) = firstErrorOf rs from rfl, ← ih]
      cases h : collectResults rs with
      | error e => simp [collectResults, h]
      | ok rest => simp [collectResults, h]

/-- C3: on a nonempty event list of length N, `send_events` dispatches
exactly ⌈N/10⌉ submissions (at least one); the submissions are exactly
the 10-chunks of the input rendered as bus entries, independent of any
batch outcome (batches are all dispatched and never rolled back); and
the overall result is success exactly when every submission succeeded,
otherwise the first error in batch order. -/
theorem publish_all_batches (bus : List PutEventsRequestEntry → Except Error Unit)
    (bus_name : String) (events : List Event) (hne : events ≠ []) :
    ((EventBridgeBus.send_events bus bus_name events).2).length = (events.length + 9) / 10 ∧
    0 < ((EventBridgeBus.send_events bus bus_name events).2).length ∧
    (EventBridgeBus.send_events bus bus_name events).2
      = (chunksOf 10 events).map (fun chunk => chunk.map (fun e => e.to_eventbridge bus_name)) ∧
    (EventBridgeBus.send_events bus bus_name events).1
      = (match firstErrorOf (((EventBridgeBus.send_events bus bus_name events).2).map bus) with
         | some e => Except.error e
         | none => Except.ok ()) := by
  have hlen : ((EventBridgeBus.send_events bus bus_name events).2).length
      = (events.length + 9) / 10 := by
    show ((chunksOf 10 events).map _).length = _
    rw [List.length_map]
    simpa [chunksOf] using chunksOfAux_length_ten events.length events le_rfl
  refine ⟨hlen, ?_, rfl, ?_⟩
  · rw [hlen]
    have : 0 < events.length := List.length_pos.mpr hne
    omega
  · exact collectResults_eq_firstError _

/-- Witness for C3: 15 events produce exactly two submissions of sizes
10 and 5; with a bus double that rejects exactly the second (size-5)
batch, the call fails with that batch's error while both submissions
were still dispatched. -/
theorem publish_all_batches_witness :
    ((EventBridgeBus.send_events busFailOn5 "test-bus" (mkEvents 15)).2).map List.length
      = [10, 5] ∧
    (EventBridgeBus.send_events busFailOn5 "test-bus" (mkEvents 15)).1
      = Except.error (Error.SdkError "batch failed") := by
  constructor
  · decide
  · rw [(publish_all_batches busFailOn5 "test-bus" (mkEvents 15) (by decide)).2.2.2]
    decide

/-! ## C5: product decode totality lemmas -/

theorem as_s_eq_some_iff (v : AttributeValue) (s : String) :
    v.as_s = some s ↔ v = AttributeValue.S s := by
  cases v <;> simp [AttributeValue.as_s]

theorem as_n_eq_some_iff (v : AttributeValue) (q : ℚ) :
    v.as_n = some q ↔ ∃ n, v = AttributeValue.N n ∧ parseNum n = some q := by
  cases v <;> simp [AttributeValue.as_n]

/-- Helper: success characterization of the ext.rs product decoder. -/
theorem from_dynamodb_ok_iff (item : AttrMap) (p : Product) :
    Product.from_dynamodb item = Except.ok p ↔
      mapGet item "id" = some (AttributeValue.S p.id) ∧
      mapGet item "name" = some (AttributeValue.S p.name) ∧
      ∃ n, mapGet item "price" = some (AttributeValue.N n) ∧ parseNum n = some p.price := by
  constructor
  · intro h
    simp only [Product.from_dynamodb] at h
    rcases hid : mapGet item "id" with _ | vid <;> rw [hid] at h
    · simp [Except.map] at h
    simp only [ok_or_some, ok_bind] at h
    rcases hs : vid.as_s with _ | sid <;> rw [hs] at h
    · simp [Except.map] at h
    simp only [ok_or_some, ok_bind] at h
    rcases hname : mapGet item "name" with _ | vname <;> rw [hname] at h
    · simp [Except.map] at h
    simp only [ok_or_some, ok_bind] at h
    rcases hns : vname.as_s with _ | sname <;> rw [hns] at h
    · simp [Except.map] at h
    simp only [ok_or_some, ok_bind] at h
    rcases hprice : mapGet item "price" with _ | vprice <;> rw [hprice] at h
    · simp [Except.map] at h
    simp only [ok_or_some, ok_bind] at h
    rcases hn : vprice.as_n with _ | q <;> rw [hn] at h
    · simp [Except.map] at h
    simp only [ok_or_some, ok_bind, Except.ok.injEq] at h
    obtain ⟨n, hvn, hpn⟩ := (as_n_eq_some_iff vprice q).mp hn
    subst hvn
    rw [(as_s_eq_some_iff vid sid).mp hs, (as_s_eq_some_iff vname sname).mp hns, ← h]
    exact ⟨rfl, rfl, n, rfl, hpn⟩
  · rintro ⟨h1, h2, n, h3, h4⟩
    rw [Product.from_dynamodb, h1, h2, h3]
    simp [AttributeValue.as_s, AttributeValue.as_n, h4, Except.map]

/-- Helper: success characterization of the model.rs product decoder. -/
theorem tryFromItem_ok_iff (item : AttrMap) (p : Product) :
    Product.tryFromItem item = Except.ok p ↔
      mapGet item "id" = some (AttributeValue.S p.id) ∧
      mapGet item "name" = some (AttributeValue.S p.name) ∧
      ∃ n, mapGet item "price" = some (AttributeValue.N n) ∧ parseNum n = some p.price := by
  constructor
  · intro h
    simp only [Product.tryFromItem] at h
    rcases hid : mapGet item "id" with _ | vid <;> rw [hid] at h
    · simp [Except.map] at h
    simp only [ok_or_some, ok_bind] at h
    rcases hs : vid.as_s with _ | sid <;> rw [hs] at h
    · simp [Except.map] at h
    simp only [ok_or_some, ok_bind] at h
    rcases hname : mapGet item "name" with _ | vname <;> rw [hname] at h
    · simp [Except.map] at h
    simp only [ok_or_some, ok_bind] at h
    rcases hns : vname.as_s with _ | sname <;> rw [hns] at h
    · simp [Except.map] at h
    simp only [ok_or_some, ok_bind] at h
    rcases hprice : mapGet item "price" with _ | vprice <;> rw [hprice] at h
    · simp [Except.map] at h
    simp only [ok_or_some, ok_bind] at h
    rcases hn : vprice.as_n with _ | q <;> rw [hn] at h
    · simp [Except.map] at h
    simp only [ok_or_some, ok_bind, Except.ok.injEq] at h
    obtain ⟨n, hvn, hpn⟩ := (as_n_eq_some_iff vprice q).mp hn
    subst hvn
    rw [(as_s_eq_some_iff vid sid).mp hs, (as_s_eq_some_iff vname sname).mp hns, ← h]
    exact ⟨rfl, rfl, n, rfl, hpn⟩
  · rintro ⟨h1, h2, n, h3, h4⟩
    rw [Product.tryFromItem, h1, h2, h3]
    simp [AttributeValue.as_s, AttributeValue.as_n, h4, Except.map]

theorem not_hasS_of_as_s_none (item : AttrMap) (key : String) (v : AttributeValue)
    (hget : mapGet item key = some v) (hv : v.as_s = none) : ¬ hasS item key := by
  rintro ⟨s, hcon⟩
  rw [hget, Option.some.injEq] at hcon
  subst hcon
  simp [AttributeValue.as_s] at hv

theorem not_hasParsableN_of_as_n_none (item : AttrMap) (key : String) (v : AttributeValue)
    (hget : mapGet item key = some v) (hv : v.as_n = none) : ¬ hasParsableN item key := by
  rintro ⟨n, q, hcon, hq⟩
  rw [hget, Option.some.injEq] at hcon
  subst hcon
  rw [show (AttributeValue.N n).as_n = parseNum n from rfl] at hv
  rw [hv] at hq
  cases hq

/-- Helper: every failure of the ext.rs product decoder carries the
message naming the offending field. -/
theorem from_dynamodb_error_cases (item : AttrMap) (e : Error)
    (h : Product.from_dynamodb item = Except.error e) :
    (e = Error.InternalError "id is missing" ∧ ¬ hasS item "id") ∨
    (e = Error.InternalError "name is missing" ∧ ¬ hasS item "name") ∨
    (e = Error.InternalError "price is missing" ∧ ¬ hasParsableN item "price") := by
  simp only [Product.from_dynamodb] at h
  rcases hid : mapGet item "id" with _ | vid <;> rw [hid] at h
  · simp only [ok_or_none, error_bind, Except.error.injEq] at h
    exact Or.inl ⟨h.symm, by simp [hasS, hid]⟩
  simp only [ok_or_some, ok_bind] at h
  rcases hs : vid.as_s with _ | sid <;> rw [hs] at h
  · simp only [ok_or_none, error_bind, Except.error.injEq] at h
    exact Or.inl ⟨h.symm, not_hasS_of_as_s_none item "id" vid hid hs⟩
  simp only [ok_or_some, ok_bind] at h
  rcases hname : mapGet item "name" with _ | vname <;> rw [hname] at h
  · simp only [ok_or_none, error_bind, Except.error.injEq] at h
    exact Or.inr (Or.inl ⟨h.symm, by simp [hasS, hname]⟩)
  simp only [ok_or_some, ok_bind] at h
  rcases hns : vname.as_s with _ | sname <;> rw [hns] at h
  · simp only [ok_or_none, error_bind, Except.error.injEq] at h
    exact Or.inr (Or.inl ⟨h.symm, not_hasS_of_as_s_none item "name" vname hname hns⟩)
  simp only [ok_or_some, ok_bind] at h
  rcases hprice : mapGet item "price" with _ | vprice <;> rw [hprice] at h
  · simp only [ok_or_none, error_bind, Except.error.injEq] at h
    exact Or.inr (Or.inr ⟨h.symm, by simp [hasParsableN, hprice]⟩)
  simp only [ok_or_some, ok_bind] at h
  rcases hn : vprice.as_n with _ | q <;> rw [hn] at h
  · simp only [ok_or_none, error_bind, Except.error.injEq] at h
    exact Or.inr (Or.inr ⟨h.symm, not_hasParsableN_of_as_n_none item "price" vprice hprice hn⟩)
  simp [Except.map] at h

/-- Helper: every failure of the model.rs product decoder carries a
message naming the offending field and the failure mode (absent versus
wrong-typed). -/
theorem tryFromItem_error_cases (item : AttrMap) (e : Error)
    (h : Product.tryFromItem item = Except.error e) :
    (e = Error.InternalError "Missing id" ∧ mapGet item "id" = none) ∨
    (e = Error.InternalError "id is not a string"
      ∧ ∃ v, mapGet item "id" = some v ∧ v.as_s = none) ∨
    (e = Error.InternalError "Missing name" ∧ mapGet item "name" = none) ∨
    (e = Error.InternalError "name is not a string"
      ∧ ∃ v, mapGet item "name" = some v ∧ v.as_s = none) ∨
    (e = Error.InternalError "Missing price" ∧ mapGet item "price" = none) ∨
    (e = Error.InternalError "price is not a number"
      ∧ ∃ v, mapGet item "price" = some v ∧ v.as_n = none) := by
  simp only [Product.tryFromItem] at h
  rcases hid : mapGet item "id" with _ | vid <;> rw [hid] at h
  · simp only [ok_or_none, error_bind, Except.error.injEq] at h
    exact Or.inl ⟨h.symm, rfl⟩
  simp only [ok_or_some, ok_bind] at h
  rcases hs : vid.as_s with _ | sid <;> rw [hs] at h
  · simp only [ok_or_none, error_bind, Except.error.injEq] at h
    exact Or.inr (Or.inl ⟨h.symm, vid, rfl, hs⟩)
  simp only [ok_or_some, ok_bind] at h
  rcases hname : mapGet item "name" with _ | vname <;> rw [hname] at h
  · simp only [ok_or_none, error_bind, Except.error.injEq] at h
    exact Or.inr (Or.inr (Or.inl ⟨h.symm, rfl⟩))
  simp only [ok_or_some, ok_bind] at h
  rcases hns : vname.as_s with _ | sname <;> rw [hns] at h
  · simp only [ok_or_none, error_bind, Except.error.injEq] at h
    exact Or.inr (Or.inr (Or.inr (Or.inl ⟨h.symm, vname, rfl, hns⟩)))
  simp only [ok_or_some, ok_bind] at h
  rcases hprice : mapGet item "price" with _ | vprice <;> rw [hprice] at h
  · simp only [ok_or_none, error_bind, Except.error.injEq] at h
    exact Or.inr (Or.inr (Or.inr (Or.inr (Or.inl ⟨h.symm, rfl⟩))))
  simp only [ok_or_some, ok_bind] at h
  rcases hn : vprice.as_n with _ | q <;> rw [hn] at h
  · simp only [ok_or_none, error_bind, Except.error.injEq] at h
    exact Or.inr (Or.inr (Or.inr (Or.inr (Or.inr ⟨h.symm, vprice, rfl, hn⟩))))
  simp [Except.map] at h

/-- C5: decoding a Product from an attribute-value map succeeds exactly
when `id` and `name` are present string-variants and `price` is a
present, parsable number-variant; on success the Product is
field-for-field the map's values; on failure the error names an
offending field and no partial Product is produced (the decoder returns
an error, not a Product).  The model.rs copy agrees on success and also
fails with field-identifying errors. -/
theorem product_decode_totality (item : AttrMap) :
    ((∃ p, Product.from_dynamodb item = Except.ok p) ↔
      hasS item "id" ∧ hasS item "name" ∧ hasParsableN item "price") ∧
    (∀ p, Product.from_dynamodb item = Except.ok p →
      mapGet item "id" = some (AttributeValue.S p.id) ∧
      mapGet item "name" = some (AttributeValue.S p.name) ∧
      ∃ n, mapGet item "price" = some (AttributeValue.N n) ∧ parseNum n = some p.price) ∧
    (∀ e, Product.from_dynamodb item = Except.error e →
      (e = Error.InternalError "id is missing" ∧ ¬ hasS item "id") ∨
      (e = Error.InternalError "name is missing" ∧ ¬ hasS item "name") ∨
      (e = Error.InternalError "price is missing" ∧ ¬ hasParsableN item "price")) ∧
    (∀ p, Product.tryFromItem item = Except.ok p ↔ Product.from_dynamodb item = Except.ok p) ∧
    (∀ e, Product.tryFromItem item = Except.error e →
      (e = Error.InternalError "Missing id" ∧ mapGet item "id" = none) ∨
      (e = Error.InternalError "id is not a string"
        ∧ ∃ v, mapGet item "id" = some v ∧ v.as_s = none) ∨
      (e = Error.InternalError "Missing name" ∧ mapGet item "name" = none) ∨
      (e = Error.InternalError "name is not a string"
        ∧ ∃ v, mapGet item "name" = some v ∧ v.as_s = none) ∨
      (e = Error.InternalError "Missing price" ∧ mapGet item "price" = none) ∨
      (e = Error.InternalError "price is not a number"
        ∧ ∃ v, mapGet item "price" = some v ∧ v.as_n = none)) := by
  refine ⟨⟨?_, ?_⟩, fun p hp => (from_dynamodb_ok_iff item p).mp hp,
    from_dynamodb_error_cases item,
    fun p => (tryFromItem_ok_iff item p).trans (from_dynamodb_ok_iff item p).symm,
    tryFromItem_error_cases item⟩
  · rintro ⟨p, hp⟩
    obtain ⟨h1, h2, n, h3, h4⟩ := (from_dynamodb_ok_iff item p).mp hp
    exact ⟨⟨p.id, h1⟩, ⟨p.name, h2⟩, n, p.price, h3, h4⟩
  · rintro ⟨⟨s1, h1⟩, ⟨s2, h2⟩, n, q, h3, h4⟩
    exact ⟨⟨s1, s2, q⟩, (from_dynamodb_ok_iff item ⟨s1, s2, q⟩).mpr ⟨h1, h2, n, h3, h4⟩⟩

/-- Witness for C5 at a concrete complete item: the three fields are
present and well-typed, so decoding succeeds. -/
theorem product_decode_totality_witness :
    (∃ p, Product.from_dynamodb goodItem = Except.ok p) ∧
    Product.from_dynamodb badPriceItem
      = Except.error (Error.InternalError "price is missing") :=
  ⟨(product_decode_totality goodItem).1.mpr
      ⟨⟨"1", rfl⟩, ⟨"a", rfl⟩, "10.5", mkRat 21 2, rfl, by decide⟩,
    by decide⟩

/-! ## C8: decimal round-trip, digit-level lemmas -/

theorem digitChar_isDigit {d : Nat} (h : d < 10) : (Nat.digitChar d).isDigit = true := by
  interval_cases d <;> decide

theorem digitChar_toNat {d : Nat} (h : d < 10) : (Nat.digitChar d).toNat - 48 = d := by
  interval_cases d <;> decide

theorem digitsAuxLE_eq_digits :
    ∀ (fuel n : Nat), n ≤ fuel → digitsAuxLE fuel n = Nat.digits 10 n := by
  intro fuel
  induction fuel with
  | zero =>
    intro n hn
    rw [Nat.le_zero.mp hn, Nat.digits_zero]
    rfl
  | succ fuel ih =>
    intro n hn
    by_cases h0 : n = 0
    · rw [h0]
      simp [digitsAuxLE]
    · rw [show digitsAuxLE (fuel + 1) n = if n = 0 then [] else n % 10 :: digitsAuxLE fuel (n / 10)
          from rfl,
        if_neg h0, Nat.digits_def' (by omega : 1 < 10) (Nat.pos_of_ne_zero h0),
        ih (n / 10) (by omega)]

theorem natToDigits_eq (n : Nat) :
    natToDigits n = ((Nat.digits 10 n).reverse).map Nat.digitChar := by
  rw [natToDigits, digitsAuxLE_eq_digits n n le_rfl]

theorem natToDigits_isDigit (n : Nat) (c : Char) (hc : c ∈ natToDigits n) :
    c.isDigit = true := by
  rw [natToDigits_eq] at hc
  obtain ⟨d, hd, hdc⟩ := List.mem_map.mp hc
  rw [← hdc]
  exact digitChar_isDigit (Nat.digits_lt_base (by omega) (List.mem_reverse.mp hd))

theorem digitsToNat_from (l : List Char) (a : Nat) :
    l.foldl (fun a c => a * 10 + (c.toNat - 48)) a = a * 10 ^ l.length + digitsToNat l := by
  induction l generalizing a with
  | nil => simp [digitsToNat]
  | cons c l ih =>
    rw [List.foldl_cons, ih]
    have hcons : digitsToNat (c :: l) = (c.toNat - 48) * 10 ^ l.length + digitsToNat l := by
      simp only [digitsToNat, List.foldl_cons]
      rw [← digitsToNat, ih]
      norm_num
    rw [hcons, List.length_cons]
    ring

theorem digitsToNat_append (l1 l2 : List Char) :
    digitsToNat (l1 ++ l2) = digitsToNat l1 * 10 ^ l2.length + digitsToNat l2 := by
  rw [digitsToNat, List.foldl_append, ← digitsToNat, digitsToNat_from]

theorem digitsToNat_natToDigits (n : Nat) : digitsToNat (natToDigits n) = n := by
  rw [natToDigits_eq]
  have key : ∀ ds : List Nat, (∀ d ∈ ds, d < 10) →
      digitsToNat ((ds.reverse).map Nat.digitChar) = Nat.ofDigits 10 ds := by
    intro ds
    induction ds with
    | nil => intro _; rfl
    | cons d ds ih =>
      intro hds
      rw [List.reverse_cons, List.map_append, digitsToNat_append,
        ih (fun x hx => hds x (List.mem_cons_of_mem d hx)), Nat.ofDigits_cons]
      simp only [List.map_cons, List.map_nil, List.length_cons, List.length_nil]
      rw [show digitsToNat [Nat.digitChar d] = (Nat.digitChar d).toNat - 48 from by
          simp [digitsToNat],
        digitChar_toNat (hds d (List.mem_cons_self d ds))]
      ring
  rw [key (Nat.digits 10 n) (fun d hd => Nat.digits_lt_base (by omega) hd),
    Nat.ofDigits_digits]

theorem digitsToNat_replicate_zero (z : Nat) :
    digitsToNat (List.replicate z '0') = 0 := by
  induction z with
  | zero => rfl
  | succ z ih =>
    rw [List.replicate_succ]
    show List.foldl _ (0 * 10 + ('0'.toNat - 48)) (List.replicate z '0') = 0
    simpa [digitsToNat] using ih

theorem natToDigits_ne_nil {n : Nat} (h : n ≠ 0) : natToDigits n ≠ [] := by
  rw [natToDigits_eq]
  simp [Nat.digits_ne_nil_iff_ne_zero.mpr h]

theorem natToDigits_length_le {n k : Nat} (h : n < 10 ^ k) :
    (natToDigits n).length ≤ k := by
  rw [natToDigits_eq]
  simp only [List.length_map, List.length_reverse]
  by_cases h0 : n = 0
  · simp [h0]
  by_contra hcon
  have hk1 : k + 1 ≤ (Nat.digits 10 n).length := by omega
  have h1 : (10 : Nat) ^ (k + 1) ≤ 10 ^ (Nat.digits 10 n).length :=
    Nat.pow_le_pow_right (by omega) hk1
  have h2 := Nat.base_pow_length_digits_le 10 n (by omega) h0
  have h3 : (10 : Nat) ^ (k + 1) = 10 * 10 ^ k := by ring
  omega

/-! ## C8: scanning and factor-multiplicity lemmas -/

theorem takeWhile_all {p : Char → Bool} :
    ∀ (l : List Char), (∀ c ∈ l, p c = true) → l.takeWhile p = l := by
  intro l
  induction l with
  | nil => intro _; rfl
  | cons c l ih =>
    intro h
    rw [List.takeWhile_cons, h c (List.mem_cons_self c l),
      ih (fun x hx => h x (List.mem_cons_of_mem c hx))]
    simp

theorem dropWhile_all {p : Char → Bool} :
    ∀ (l : List Char), (∀ c ∈ l, p c = true) → l.dropWhile p = [] := by
  intro l
  induction l with
  | nil => intro _; rfl
  | cons c l ih =>
    intro h
    rw [List.dropWhile_cons, h c (List.mem_cons_self c l)]
    exact ih (fun x hx => h x (List.mem_cons_of_mem c hx))

theorem takeWhile_append_stop {p : Char → Bool} (c0 : Char) (hc0 : p c0 = false) :
    ∀ (l1 l2 : List Char), (∀ c ∈ l1, p c = true) →
      (l1 ++ c0 :: l2).takeWhile p = l1 := by
  intro l1
  induction l1 with
  | nil =>
    intro l2 _
    simp [List.takeWhile_cons, hc0]
  | cons c l1 ih =>
    intro l2 h
    rw [List.cons_append, List.takeWhile_cons, h c (List.mem_cons_self c l1),
      ih l2 (fun x hx => h x (List.mem_cons_of_mem c hx))]
    simp

theorem dropWhile_append_stop {p : Char → Bool} (c0 : Char) (hc0 : p c0 = false) :
    ∀ (l1 l2 : List Char), (∀ c ∈ l1, p c = true) →
      (l1 ++ c0 :: l2).dropWhile p = c0 :: l2 := by
  intro l1
  induction l1 with
  | nil =>
    intro l2 _
    simp [List.dropWhile_cons, hc0]
  | cons c l1 ih =>
    intro l2 h
    rw [List.cons_append, List.dropWhile_cons, h c (List.mem_cons_self c l1)]
    exact ih l2 (fun x hx => h x (List.mem_cons_of_mem c hx))

theorem factorCountAux_eq {p : Nat} (hp : 2 ≤ p) {m : Nat} (hm : ¬ p ∣ m) :
    ∀ (i fuel n : Nat), n = p ^ i * m → n ≤ fuel → factorCountAux p fuel n = i := by
  intro i
  induction i with
  | zero =>
    intro fuel n hn hfuel
    rw [pow_zero, one_mul] at hn
    subst hn
    cases fuel with
    | zero => rfl
    | succ fuel =>
      rw [show factorCountAux p (fuel + 1) n
          = if 2 ≤ p ∧ n % p = 0 ∧ n ≠ 0 then factorCountAux p fuel (n / p) + 1 else 0
          from rfl, if_neg]
      rintro ⟨_, hmod, _⟩
      exact hm (Nat.dvd_of_mod_eq_zero hmod)
  | succ i ih =>
    intro fuel n hn hfuel
    have hm0 : m ≠ 0 := fun h0 => hm (h0 ▸ dvd_zero p)
    have hn0 : n ≠ 0 := by
      rw [hn]
      positivity
    have hdvd : p ∣ n := hn ▸ Dvd.dvd.mul_right (dvd_pow_self p (Nat.succ_ne_zero i)) m
    cases fuel with
    | zero => exact absurd (Nat.le_zero.mp hfuel) hn0
    | succ fuel =>
      rw [show factorCountAux p (fuel + 1) n
          = if 2 ≤ p ∧ n % p = 0 ∧ n ≠ 0 then factorCountAux p fuel (n / p) + 1 else 0
          from rfl,
        if_pos ⟨hp, by
          obtain ⟨c, hc⟩ := hdvd
          rw [hc]
          exact Nat.mul_mod_right p c, hn0⟩]
      have hdiv : n / p = p ^ i * m := by
        have harr : p ^ (i + 1) * m = p * (p ^ i * m) := by ring
        rw [hn, harr, Nat.mul_div_cancel_left _ (by omega : 0 < p)]
      have hlt : n / p ≤ fuel := by
        have : n / p < n := Nat.div_lt_self (Nat.pos_of_ne_zero hn0) (by omega)
        omega
      rw [hdiv] at hlt ⊢
      rw [ih fuel (p ^ i * m) rfl hlt]

/-! ## C8: denominator decomposition -/

theorem factorCount_pow_mul {p : Nat} (hp : 2 ≤ p) {m : Nat} (hm : ¬ p ∣ m) (i : Nat) :
    factorCount p (p ^ i * m) = i :=
  factorCountAux_eq hp hm i (p ^ i * m) (p ^ i * m) rfl le_rfl

theorem dvd_pow_ten_decomp {d K : Nat} (h : d ∣ 10 ^ K) :
    ∃ i j, i ≤ K ∧ j ≤ K ∧ d = 2 ^ i * 5 ^ j := by
  have h10 : (10 : Nat) ^ K = 2 ^ K * 5 ^ K := by
    rw [← Nat.mul_pow]
  rw [h10] at h
  obtain ⟨y, z, hy, hz, hyz⟩ := Nat.dvd_mul.mp h
  obtain ⟨i, hi, rfl⟩ := (Nat.dvd_prime_pow Nat.prime_two).mp hy
  obtain ⟨j, hj, rfl⟩ := (Nat.dvd_prime_pow (by norm_num : Nat.Prime 5)).mp hz
  exact ⟨i, j, hi, hj, hyz.symm⟩

theorem not_two_dvd_five_pow (j : Nat) : ¬ (2 : Nat) ∣ 5 ^ j := by
  intro h
  have := Nat.Prime.dvd_of_dvd_pow Nat.prime_two h
  omega

theorem not_five_dvd_two_pow (i : Nat) : ¬ (5 : Nat) ∣ 2 ^ i := by
  intro h
  have := Nat.Prime.dvd_of_dvd_pow (by norm_num : Nat.Prime 5) h
  omega

theorem den_dvd_ten_pow_denExp {q : ℚ} {K : Nat} (hK : q.den ∣ 10 ^ K) :
    q.den ∣ 10 ^ denExp q := by
  obtain ⟨i, j, _, _, hd⟩ := dvd_pow_ten_decomp hK
  have h2 : factorCount 2 q.den = i := by
    rw [hd]
    exact factorCount_pow_mul (by omega) (not_two_dvd_five_pow j) i
  have h5 : factorCount 5 q.den = j := by
    rw [hd, mul_comm]
    exact factorCount_pow_mul (by omega) (not_five_dvd_two_pow i) j
  rw [denExp, h2, h5, hd]
  have h10 : (10 : Nat) ^ max i j = 2 ^ max i j * 5 ^ max i j := by
    rw [← Nat.mul_pow]
  rw [h10]
  exact Nat.mul_dvd_mul (pow_dvd_pow 2 (le_max_left i j)) (pow_dvd_pow 5 (le_max_right i j))

theorem mantissa_mul_den {q : ℚ} (hden : q.den ∣ 10 ^ denExp q) :
    mantissaOf q * q.den = q.num.natAbs * 10 ^ denExp q := by
  rw [mantissaOf, mul_assoc, Nat.div_mul_cancel hden]

/-- Value lemma: the printed mantissa over `10 ^ denExp q` is `|q|`. -/
theorem mkRat_mantissa {q : ℚ} (hden : q.den ∣ 10 ^ denExp q) :
    mkRat (mantissaOf q : Int) (10 ^ denExp q) = |q| := by
  have hmden := mantissa_mul_den hden
  rw [Rat.mkRat_eq_div]
  have hden0 : (q.den : ℚ) ≠ 0 := by
    exact_mod_cast q.den_nz
  have h10 : ((10 ^ denExp q : ℕ) : ℚ) ≠ 0 := by
    positivity
  have habs : |q| = (q.num.natAbs : ℚ) / (q.den : ℚ) := by
    conv_lhs => rw [← Rat.num_div_den q]
    rw [abs_div, Int.cast_natAbs, Int.cast_abs,
      abs_of_pos (show (0 : ℚ) < q.den from Nat.cast_pos.mpr q.pos)]
  rw [habs, div_eq_div_iff h10 hden0]
  push_cast
  exact_mod_cast hmden

/-! ## C8: the printed form parses back -/

theorem toList_append (s t : String) : (s ++ t).toList = s.toList ++ t.toList := by
  cases s
  cases t
  rfl

theorem not_sign_of_isDigit {c : Char} (h : c.isDigit = true) :
    c ≠ '-' ∧ c ≠ '+' := by
  constructor <;> rintro rfl <;> exact absurd h (by decide)

theorem splitSign_neg (cs : List Char) : splitSign ('-' :: cs) = (true, cs) := by
  simp [splitSign]

theorem splitSign_of_digit {c : Char} (h : c.isDigit = true) (rest : List Char) :
    splitSign (c :: rest) = (false, c :: rest) := by
  simp [splitSign, (not_sign_of_isDigit h).1, (not_sign_of_isDigit h).2]

theorem parseMantissa_digits (ds : List Char) (h : ∀ c ∈ ds, c.isDigit = true)
    (hne : ds ≠ []) : parseMantissa ds = some (digitsToNat ds, 0, []) := by
  have ht := takeWhile_all ds h
  have hd := dropWhile_all ds h
  cases ds with
  | nil => exact absurd rfl hne
  | cons c cs =>
    simp only [parseMantissa, ht, hd]
    rfl

theorem parseMantissa_point (ds1 ds2 : List Char) (h1 : ∀ c ∈ ds1, c.isDigit = true)
    (h2 : ∀ c ∈ ds2, c.isDigit = true) (hne : ds1 ≠ []) :
    parseMantissa (ds1 ++ '.' :: ds2)
      = some (digitsToNat (ds1 ++ ds2), ds2.length, []) := by
  have ht := takeWhile_append_stop '.' (by decide) ds1 ds2 h1
  have hd := dropWhile_append_stop '.' (by decide) ds1 ds2 h1
  have ht2 := takeWhile_all ds2 h2
  have hd2 := dropWhile_all ds2 h2
  cases ds1 with
  | nil => exact absurd rfl hne
  | cons c cs =>
    simp only [parseMantissa, ht, hd, ht2, hd2]
    simp [List.isEmpty]

theorem parseMantissa_formatBody (q : ℚ) :
    parseMantissa ((formatBody q).toList) = some (mantissaOf q, denExp q, []) := by
  simp only [formatBody]
  by_cases hk : denExp q = 0
  · rw [if_pos hk]
    by_cases hm : mantissaOf q = 0
    · rw [if_pos hm, hk, hm]
      decide
    · rw [if_neg hm]
      rw [show (String.mk (natToDigits (mantissaOf q))).toList
          = natToDigits (mantissaOf q) from rfl]
      rw [parseMantissa_digits _ (natToDigits_isDigit _) (natToDigits_ne_nil hm),
        digitsToNat_natToDigits, hk]
  · rw [if_neg hk]
    have hfp : mantissaOf q % 10 ^ denExp q < 10 ^ denExp q :=
      Nat.mod_lt _ (Nat.pos_pow_of_pos _ (by omega))
    have hfplen := natToDigits_length_le hfp
    have hpadDigits : ∀ c ∈ List.replicate
        (denExp q - (natToDigits (mantissaOf q % 10 ^ denExp q)).length) '0'
        ++ natToDigits (mantissaOf q % 10 ^ denExp q), c.isDigit = true := by
      intro c hc
      rcases List.mem_append.mp hc with hc | hc
      · rw [List.eq_of_mem_replicate hc]
        decide
      · exact natToDigits_isDigit _ c hc
    have hpadLen : (List.replicate
        (denExp q - (natToDigits (mantissaOf q % 10 ^ denExp q)).length) '0'
        ++ natToDigits (mantissaOf q % 10 ^ denExp q)).length = denExp q := by
      rw [List.length_append, List.length_replicate]
      omega
    have hpadVal : digitsToNat (List.replicate
        (denExp q - (natToDigits (mantissaOf q % 10 ^ denExp q)).length) '0'
        ++ natToDigits (mantissaOf q % 10 ^ denExp q)) = mantissaOf q % 10 ^ denExp q := by
      rw [digitsToNat_append, digitsToNat_replicate_zero, digitsToNat_natToDigits]
      ring
    by_cases hip : mantissaOf q / 10 ^ denExp q = 0
    · rw [if_pos hip]
      rw [show ("0" ++ "." ++ String.mk (List.replicate
          (denExp q - (natToDigits (mantissaOf q % 10 ^ denExp q)).length) '0'
          ++ natToDigits (mantissaOf q % 10 ^ denExp q))).toList
          = ['0'] ++ '.' :: (List.replicate
          (denExp q - (natToDigits (mantissaOf q % 10 ^ denExp q)).length) '0'
          ++ natToDigits (mantissaOf q % 10 ^ denExp q)) from by
          rw [toList_append, toList_append, List.append_assoc]
          rfl]
      rw [parseMantissa_point ['0'] _ (by decide) hpadDigits (by decide)]
      rw [show digitsToNat (['0'] ++ (List.replicate
          (denExp q - (natToDigits (mantissaOf q % 10 ^ denExp q)).length) '0'
          ++ natToDigits (mantissaOf q % 10 ^ denExp q)))
          = mantissaOf q % 10 ^ denExp q from by
          rw [digitsToNat_append, hpadVal, hpadLen]
          simp [digitsToNat]]
      rw [hpadLen]
      have hdm := Nat.div_add_mod (mantissaOf q) (10 ^ denExp q)
      rw [hip, Nat.mul_zero, Nat.zero_add] at hdm
      rw [hdm]
    · rw [if_neg hip]
      rw [show (String.mk (natToDigits (mantissaOf q / 10 ^ denExp q)) ++ "."
          ++ String.mk (List.replicate
          (denExp q - (natToDigits (mantissaOf q % 10 ^ denExp q)).length) '0'
          ++ natToDigits (mantissaOf q % 10 ^ denExp q))).toList
          = natToDigits (mantissaOf q / 10 ^ denExp q) ++ '.' :: (List.replicate
          (denExp q - (natToDigits (mantissaOf q % 10 ^ denExp q)).length) '0'
          ++ natToDigits (mantissaOf q % 10 ^ denExp q)) from by
          rw [toList_append, toList_append, List.append_assoc]
          rfl]
      rw [parseMantissa_point _ _ (natToDigits_isDigit _) hpadDigits (natToDigits_ne_nil hip)]
      rw [digitsToNat_append, hpadVal, hpadLen, digitsToNat_natToDigits]
      rw [mul_comm (mantissaOf q / 10 ^ denExp q) (10 ^ denExp q), Nat.div_add_mod]

theorem formatBody_head_digit (q : ℚ) :
    ∃ c cs, (formatBody q).toList = c :: cs ∧ c.isDigit = true := by
  simp only [formatBody]
  by_cases hk : denExp q = 0
  · rw [if_pos hk]
    by_cases hm : mantissaOf q = 0
    · rw [if_pos hm]
      exact ⟨'0', [], rfl, by decide⟩
    · rw [if_neg hm]
      rcases hds : natToDigits (mantissaOf q) with _ | ⟨c, cs⟩
      · exact absurd hds (natToDigits_ne_nil hm)
      · exact ⟨c, cs, rfl,
          natToDigits_isDigit _ c (by rw [hds]; exact List.mem_cons_self c cs)⟩
  · rw [if_neg hk]
    by_cases hip : mantissaOf q / 10 ^ denExp q = 0
    · rw [if_pos hip]
      refine ⟨'0', '.' :: (List.replicate
        (denExp q - (natToDigits (mantissaOf q % 10 ^ denExp q)).length) '0'
        ++ natToDigits (mantissaOf q % 10 ^ denExp q)), ?_, by decide⟩
      rw [toList_append, toList_append, List.append_assoc]
      rfl
    · rw [if_neg hip]
      rcases hds : natToDigits (mantissaOf q / 10 ^ denExp q) with _ | ⟨c, cs⟩
      · exact absurd hds (natToDigits_ne_nil hip)
      · refine ⟨c, cs ++ '.' :: (List.replicate
          (denExp q - (natToDigits (mantissaOf q % 10 ^ denExp q)).length) '0'
          ++ natToDigits (mantissaOf q % 10 ^ denExp q)), ?_,
          natToDigits_isDigit _ c (by rw [hds]; exact List.mem_cons_self c cs)⟩
        rw [toList_append, toList_append, List.append_assoc]
        rfl

/-- The decimal printer and the parser are mutually inverse on every
rational whose reduced denominator divides a power of ten (which is the
case for the exact value of every finite `f64`). -/
theorem parseNum_formatNum {q : ℚ} (h : ∃ K, q.den ∣ 10 ^ K) :
    parseNum (formatNum q) = some q := by
  obtain ⟨K, hK⟩ := h
  have hden := den_dvd_ten_pow_denExp hK
  obtain ⟨c, cs, hbody, hcdigit⟩ := formatBody_head_digit q
  have hmant := parseMantissa_formatBody q
  have hval : mkRat ((mantissaOf q : Int) * 10 ^ (Int.toNat 0))
      (10 ^ denExp q * 10 ^ (Int.toNat (-0))) = |q| := by
    rw [show Int.toNat 0 = 0 from rfl, show Int.toNat (-0) = 0 from rfl, pow_zero,
      pow_zero, mul_one, mul_one]
    exact mkRat_mantissa hden
  by_cases hneg : q.num < 0
  · have hq : q < 0 := by
      by_contra hq
      push_neg at hq
      exact absurd (Rat.num_nonneg.mpr hq) (by omega)
    rw [formatNum, if_pos hneg]
    have hsplit : splitSign (("-" ++ formatBody q).toList)
        = (true, (formatBody q).toList) := by
      rw [show ("-" ++ formatBody q).toList = '-' :: (formatBody q).toList from by
          rw [toList_append]; rfl]
      exact splitSign_neg _
    simp only [parseNum, hsplit, hmant, parseExponent, if_true]
    rw [hval, abs_of_neg hq, neg_neg]
  · have hq : 0 ≤ q := by
      push_neg at hneg
      exact Rat.num_nonneg.mp hneg
    rw [formatNum, if_neg hneg]
    have hsplit : splitSign (("" ++ formatBody q).toList)
        = (false, (formatBody q).toList) := by
      rw [show ("" ++ formatBody q).toList = (formatBody q).toList from by
          rw [toList_append]; rfl, hbody, splitSign_of_digit hcdigit, ← hbody]
    simp only [parseNum, hsplit, hmant, parseExponent, Bool.false_eq_true, if_false]
    rw [hval, abs_of_nonneg hq]

theorem formatNum_chars (q : ℚ) (c : Char) (hc : c ∈ (formatNum q).toList) :
    c.isDigit = true ∨ c = '-' ∨ c = '.' := by
  rw [formatNum, toList_append] at hc
  rcases List.mem_append.mp hc with hc | hc
  · by_cases hneg : q.num < 0
    · rw [if_pos hneg, show ("-" : String).toList = ['-'] from rfl] at hc
      exact Or.inr (Or.inl (by simpa using hc))
    · rw [if_neg hneg, show ("" : String).toList = [] from rfl] at hc
      cases hc
  · simp only [formatBody] at hc
    by_cases hk : denExp q = 0
    · rw [if_pos hk] at hc
      by_cases hm : mantissaOf q = 0
      · rw [if_pos hm, show ("0" : String).toList = ['0'] from rfl] at hc
        have hc0 : c = '0' := by simpa using hc
        rw [hc0]
        exact Or.inl (by decide)
      · rw [if_neg hm] at hc
        exact Or.inl (natToDigits_isDigit _ c hc)
    · rw [if_neg hk, toList_append, toList_append] at hc
      rcases List.mem_append.mp hc with hc | hc
      · rcases List.mem_append.mp hc with hc | hc
        · by_cases hip : mantissaOf q / 10 ^ denExp q = 0
          · rw [if_pos hip, show ("0" : String).toList = ['0'] from rfl] at hc
            have hc0 : c = '0' := by simpa using hc
            rw [hc0]
            exact Or.inl (by decide)
          · rw [if_neg hip] at hc
            exact Or.inl (natToDigits_isDigit _ c hc)
        · rw [show ("." : String).toList = ['.'] from rfl] at hc
          exact Or.inr (Or.inr (by simpa using hc))
      · rcases List.mem_append.mp hc with hc | hc
        · rw [List.eq_of_mem_replicate hc]
          exact Or.inl (by decide)
        · exact Or.inl (natToDigits_isDigit _ c hc)

/-! ## C8: the claim -/

/-- C8: encoding a Product to an attribute-value map is a total pure
function; the price is rendered as a plain decimal string containing no
exponent marker; and decoding the encoded map yields the original
Product.  The hypothesis — the price's reduced denominator divides a
power of ten — holds for the exact value of every finite `f64`, since
every finite double prints as a finite decimal. -/
theorem product_encode_decode_roundtrip (p : Product)
    (h : ∃ K, p.price.den ∣ 10 ^ K) :
    Store.Product.from_dynamodb (Store.Product.to_dynamodb p) = Except.ok p ∧
    mapGet (Store.Product.to_dynamodb p) "id" = some (AttributeValue.S p.id) ∧
    mapGet (Store.Product.to_dynamodb p) "name" = some (AttributeValue.S p.name) ∧
    mapGet (Store.Product.to_dynamodb p) "price"
      = some (AttributeValue.N (formatNum p.price)) ∧
    (∀ c ∈ (formatNum p.price).toList, c ≠ 'e' ∧ c ≠ 'E') := by
  refine ⟨?_, rfl, rfl, rfl, ?_⟩
  · have hprice : Store.get_n (Store.Product.to_dynamodb p) "price" = some p.price := by
      rw [show Store.get_n (Store.Product.to_dynamodb p) "price"
          = parseNum (formatNum p.price) from rfl]
      exact parseNum_formatNum h
    rw [Store.Product.from_dynamodb,
      show Store.get_s (Store.Product.to_dynamodb p) "id" = some p.id from rfl,
      show Store.get_s (Store.Product.to_dynamodb p) "name" = some p.name from rfl,
      hprice]
    rfl
  · intro c hc
    rcases formatNum_chars p.price c hc with h1 | h1 | h1 <;>
      exact ⟨by rintro rfl; exact absurd h1 (by decide),
        by rintro rfl; exact absurd h1 (by decide)⟩

/-- Witness for C8 at the concrete product `{id1, n1, 10.5}` (denominator
2 divides 10). -/
theorem product_encode_decode_roundtrip_witness :
    Store.Product.from_dynamodb (Store.Product.to_dynamodb
        { id := "id1", name := "n1", price := mkRat 21 2 })
      = Except.ok { id := "id1", name := "n1", price := mkRat 21 2 } :=
  (product_encode_decode_roundtrip { id := "id1", name := "n1", price := mkRat 21 2 }
    ⟨1, by decide⟩).1
